import Mathlib

/-!
# Verification of the ReAET animation-graph core

A shallow embedding, in Lean 4, of the parts of the ReAET editor that the
specification talks about:

* `calc_mat` (src/aet.rs, lines 802-878): the per-layer transform/opacity
  composition step.  Machine `f32` values are idealised as `ℚ`; keyframe
  curves are external capabilities (`Curve.interpolate(frame) -> f32`,
  spec §1) and are therefore embedded as opaque sampling functions `ℚ → ℚ`.
  The trigonometric functions of the host language are likewise external
  numeric capabilities; they are threaded through as parameters
  `cosDeg sinDeg : ℚ → ℚ` standing for `cos ∘ to_radians` and
  `sin ∘ to_radians` (on degree-valued inputs; `to_radians` is linear, so
  `(-a).to_radians() = -(a.to_radians())` exactly, which is used when the
  source negates before converting).
* `AetCompNode::display` (src/aet.rs, lines 1025-1121): the traversal that
  walks a composition back-to-front producing render instructions.  A layer's
  `parent` field is a strong `Rc<Mutex<AetLayerNode>>` in the source; here a
  parent reference is an identifier resolved through an environment
  `env : Nat → Option LayerVideo` giving the referenced node's `video`
  block — the node always exists while referenced (strong reference), and
  `env` is untouched by removing the node from its composition's layer list.
* The structural-edit flush at the end of `AetSceneNode::display_tree`
  (src/aet.rs, lines 398-445) and undo snapshotting, over an explicit heap
  of layer nodes addressed by identifier, so that the `Rc` sharing of the
  source is represented faithfully.
* `LayerUndoer` (src/app.rs, lines 44-156): the coalescing undo component,
  generic over the type of layer snapshots (the source compares snapshots
  with `PartialEq`; the model takes any type with decidable equality).
-/

/-- Componentwise rational 4-vector, modelling the `f32` `Vec4` rows of the
source's `Mat4`. -/
structure Vec4 where
  x : ℚ
  y : ℚ
  z : ℚ
  w : ℚ
deriving DecidableEq, Repr

/-- Column-major 4×4 matrix as in the source: four `Vec4` columns
`x`, `y`, `z`, `w`. -/
structure Mat4 where
  x : Vec4
  y : Vec4
  z : Vec4
  w : Vec4
deriving DecidableEq, Repr

/-- Componentwise addition of vectors (`Vec4 + Vec4` in the source). -/
def Vec4.add (a b : Vec4) : Vec4 :=
  ⟨a.x + b.x, a.y + b.y, a.z + b.z, a.w + b.w⟩

instance : Add Vec4 := ⟨Vec4.add⟩

/-- Scaling of a vector by a scalar (`Vec4 * f32` in the source). -/
def Vec4.smul (a : Vec4) (s : ℚ) : Vec4 :=
  ⟨a.x * s, a.y * s, a.z * s, a.w * s⟩

instance : HMul Vec4 ℚ Vec4 := ⟨Vec4.smul⟩

/-- The identity matrix (the incoming transform in the spec's scenarios). -/
def idMat : Mat4 :=
  { x := ⟨1, 0, 0, 0⟩, y := ⟨0, 1, 0, 0⟩, z := ⟨0, 0, 1, 0⟩, w := ⟨0, 0, 0, 1⟩ }

/-- `f32::clamp`: `x` clamped to `[lo, hi]`. -/
def clampQ (x lo hi : ℚ) : ℚ := max lo (min hi x)

/-- The optional Video3D extension block of a layer's video animation
(kkdlib's `LayerVideo3D`); each curve is embedded as its sampling
function. -/
structure Video3D where
  anchor_z : ℚ → ℚ
  pos_z : ℚ → ℚ
  dir_x : ℚ → ℚ
  dir_y : ℚ → ℚ
  dir_z : ℚ → ℚ
  rot_x : ℚ → ℚ
  rot_y : ℚ → ℚ
  scale_z : ℚ → ℚ

/-- A layer's video animation block (kkdlib's `LayerVideo`), with each curve
embedded as its sampling function and the transfer mode reduced to its
numeric blend mode. -/
structure LayerVideo where
  anchor_x : ℚ → ℚ
  anchor_y : ℚ → ℚ
  pos_x : ℚ → ℚ
  pos_y : ℚ → ℚ
  rot_z : ℚ → ℚ
  scale_x : ℚ → ℚ
  scale_y : ℚ → ℚ
  opacity : ℚ → ℚ
  transferMode : Nat
  threeD : Option Video3D

/-- Rotation block around the current X basis axis, from src/aet.rs
lines 830-836 (`dir[0]`) and 852-858 (`rot[0]`): applied only under the
strictly-positive gate; `rad = -angle` (in degrees, converted by the
`cosDeg`/`sinDeg` oracles). -/
def rotAroundX (cosDeg sinDeg : ℚ → ℚ) (a : ℚ) (m : Mat4) : Mat4 :=
  if 0 < a then
    let rad := -a
    { m with
      y := m.y * cosDeg rad + m.z * sinDeg rad
      z := m.y * (-sinDeg rad) + m.z * cosDeg rad }
  else m

/-- Rotation block around the current Y basis axis, from src/aet.rs
lines 837-843 (`dir[1]`) and 859-865 (`rot[1]`). -/
def rotAroundY (cosDeg sinDeg : ℚ → ℚ) (a : ℚ) (m : Mat4) : Mat4 :=
  if 0 < a then
    let rad := -a
    { m with
      x := m.x * cosDeg rad + m.z * (-sinDeg rad)
      z := m.x * sinDeg rad + m.z * cosDeg rad }
  else m

/-- Rotation block around the current Z basis axis, from src/aet.rs
lines 844-850 (`dir[2]`) and 866-872 (`rot[2]`); here `rad = +angle`. -/
def rotAroundZ (cosDeg sinDeg : ℚ → ℚ) (a : ℚ) (m : Mat4) : Mat4 :=
  if 0 < a then
    let rad := a
    { m with
      x := m.x * cosDeg rad + m.y * sinDeg rad
      y := m.x * (-sinDeg rad) + m.y * cosDeg rad }
  else m

/-- `calc_mat` (src/aet.rs lines 802-878), translated statement by
statement.  Samples the curves at `frame`, multiplies the running opacity by
the clamped opacity sample, then mutates the matrix: translate by `pos`
(with `pos[2]` holding the *negated* `pos_z` sample and the translation
using `-pos[2]`), the six gated rotations in order `dir.x, dir.y, dir.z,
rot.x, rot.y, rot.z`, scaling of the basis vectors, and the `-anchor`
translation against the scaled basis. -/
def calcMat (cosDeg sinDeg : ℚ → ℚ) (video : LayerVideo) (frame : ℚ)
    (m : Mat4) (opacity : ℚ) : Mat4 × ℚ :=
  let pos0 := video.pos_x frame
  let pos1 := video.pos_y frame
  let rot2 := video.rot_z frame
  let scale0 := video.scale_x frame
  let scale1 := video.scale_y frame
  let anchor0 := video.anchor_x frame
  let anchor1 := video.anchor_y frame
  let opacity := opacity * clampQ (video.opacity frame) 0 1
  let pos2 : ℚ := match video.threeD with
    | some d => -(d.pos_z frame)
    | none => 0
  let dir0 : ℚ := match video.threeD with
    | some d => d.dir_x frame
    | none => 0
  let dir1 : ℚ := match video.threeD with
    | some d => d.dir_y frame
    | none => 0
  let dir2 : ℚ := match video.threeD with
    | some d => d.dir_z frame
    | none => 0
  let rot0 : ℚ := match video.threeD with
    | some d => d.rot_x frame
    | none => 0
  let rot1 : ℚ := match video.threeD with
    | some d => d.rot_y frame
    | none => 0
  let scale2 : ℚ := match video.threeD with
    | some d => d.scale_z frame
    | none => 1
  let anchor2 : ℚ := match video.threeD with
    | some d => d.anchor_z frame
    | none => 0
  let m := { m with w := m.x * pos0 + m.y * pos1 + m.z * (-pos2) + m.w }
  let m := rotAroundX cosDeg sinDeg dir0 m
  let m := rotAroundY cosDeg sinDeg dir1 m
  let m := rotAroundZ cosDeg sinDeg dir2 m
  let m := rotAroundX cosDeg sinDeg rot0 m
  let m := rotAroundY cosDeg sinDeg rot1 m
  let m := rotAroundZ cosDeg sinDeg rot2 m
  let m := { m with x := m.x * scale0, y := m.y * scale1, z := m.z * scale2 }
  let m := { m with
    w := m.x * (-anchor0) + m.y * (-anchor1) + m.z * (-anchor2) + m.w }
  (m, opacity)

/-- Unfolding lemma for vector addition. -/
theorem Vec4.add_def (a b : Vec4) :
    a + b = ⟨a.x + b.x, a.y + b.y, a.z + b.z, a.w + b.w⟩ := rfl

/-- Unfolding lemma for vector scaling. -/
theorem Vec4.smul_def (a : Vec4) (s : ℚ) :
    a * s = ⟨a.x * s, a.y * s, a.z * s, a.w * s⟩ := rfl

example :
    (calcMat (fun _ => 1) (fun _ => 0)
      { anchor_x := fun _ => 0, anchor_y := fun _ => 0
        pos_x := fun _ => 10, pos_y := fun _ => 0, rot_z := fun _ => 0
        scale_x := fun _ => 1, scale_y := fun _ => 1
        opacity := fun _ => 1, transferMode := 0, threeD := none }
      0 idMat 1).1.w = ⟨10, 0, 0, 1⟩ := by
  simp [calcMat, rotAroundX, rotAroundY, rotAroundZ, clampQ, idMat,
    Vec4.add_def, Vec4.smul_def]

/-- The resolved sprite attached to a video source
(`AetVideoSourceNode.sprite`).  Texture-coordinate and atlas data come from
the external sprite-resolution boundary (spr/txp modules); the stub carries
the resulting values opaquely. -/
structure SpriteStub where
  isYcbcr : Bool
  texCoords : ℚ × ℚ × ℚ × ℚ
  texIndex : Nat
deriving DecidableEq, Repr

/-- `AetVideoSourceNode`: a named, id-keyed bitmap reference with an
optional resolved sprite. -/
structure SourceItem where
  name : String
  id : Nat
  sprite : Option SpriteStub
deriving DecidableEq, Repr

/-- `AetVideoNode`: the video content of a layer. -/
structure VideoItem where
  color0 : Nat
  color1 : Nat
  color2 : Nat
  width : Nat
  height : Nat
  fpf : ℚ
  sources : List SourceItem
deriving DecidableEq, Repr

/-- The non-recursive fields of `AetLayerNode` (src/aet.rs lines 1338-1360)
used by `AetCompNode::display`.  `parent` is the identifier of the
referenced layer node (the source holds a strong
`Rc<Mutex<AetLayerNode>>`); `flagsVideoActive` stands for
`flags.video_active()` and `visible` for the UI visibility toggle. -/
structure LayerFields where
  name : String
  start_time : ℚ
  end_time : ℚ
  offset_time : ℚ
  time_scale : ℚ
  flagsVideoActive : Bool
  visible : Bool
  video : Option LayerVideo
  parent : Option Nat

/-- `AetItemNode`: the content variant of a layer.  A sub-composition holds
its child layers inline (the traversal reads them as a tree). -/
inductive AItem where
  | anone : AItem
  | avideo : VideoItem → AItem
  | aaudio : Nat → AItem
  | acomp : List (LayerFields × AItem) → AItem

/-- A layer node as the traversal sees it: its fields plus its content. -/
abbrev ALayer := LayerFields × AItem

/-- `WgpuAetVideo`: one render instruction, carrying the composed matrix and
the color whose alpha component is the composed opacity. -/
structure RenderInstr where
  isYcbcr : Bool
  isEmpty : Bool
  texCoords : ℚ × ℚ × ℚ × ℚ
  sourceSize : ℚ × ℚ
  texIndex : Nat
  mat : Mat4
  colorR : ℚ
  colorG : ℚ
  colorB : ℚ
  colorA : ℚ
  blendMode : Nat
deriving DecidableEq, Repr

/-- The matrix/opacity update of one loop iteration of
`AetCompNode::display` (src/aet.rs lines 1043-1052): apply the referenced
parent node's video animation when the reference is set and that node has
one, then the layer's own video animation, both at the current frame.
`env` resolves a parent identifier to the referenced node's `video`
block. -/
def layerStep (cosDeg sinDeg : ℚ → ℚ) (env : Nat → Option LayerVideo)
    (f : LayerFields) (frame : ℚ) (mat : Mat4) (opacity : ℚ) : Mat4 × ℚ :=
  let s1 : Mat4 × ℚ := match f.parent with
    | some pid =>
      match env pid with
      | some v => calcMat cosDeg sinDeg v frame mat opacity
      | none => (mat, opacity)
    | none => (mat, opacity)
  match f.video with
  | some v => calcMat cosDeg sinDeg v frame s1.1 s1.2
  | none => s1

/-- `layer.video.as_ref().map_or(BlendMode::Normal, |video|
video.transfer_mode.mode)` from the emission arms of the display loop. -/
def blendOf (f : LayerFields) : Nat :=
  match f.video with
  | some v => v.transferMode
  | none => 0

/-- The `AetItemNode::Video` emission arm of the display loop (src/aet.rs
lines 1056-1110): no source and placeholders enabled emits one placeholder
instruction; a first source with a resolved sprite emits one textured
instruction; otherwise nothing. -/
def emitVideo (ph : Bool) (s2 : Mat4 × ℚ) (blend : Nat) (vi : VideoItem) :
    List RenderInstr :=
  match vi.sources with
  | [] =>
    if ph then
      [{ isYcbcr := false, isEmpty := true, texCoords := (0, 0, 0, 0)
         sourceSize := ((vi.width : ℚ), (vi.height : ℚ)), texIndex := 0
         mat := s2.1
         colorR := (vi.color0 : ℚ) / 255, colorG := (vi.color1 : ℚ) / 255
         colorB := (vi.color2 : ℚ) / 255, colorA := s2.2
         blendMode := blend }]
    else []
  | src :: _ =>
    match src.sprite with
    | none => []
    | some sp =>
      [{ isYcbcr := sp.isYcbcr, isEmpty := false
         texCoords := sp.texCoords
         sourceSize := ((vi.width : ℚ), (vi.height : ℚ))
         texIndex := sp.texIndex, mat := s2.1
         colorR := 1, colorG := 1, colorB := 1, colorA := s2.2
         blendMode := blend }]

/-- The body of one iteration of the loop in `AetCompNode::display`
(src/aet.rs lines 1033-1120) for a single layer, given the incoming matrix,
local frame and opacity of the enclosing composition: skip the layer when
the frame lies outside `[start_time, end_time)` or a visibility flag is
off; otherwise run `layerStep` and emit according to the content.  `fuel`
bounds the sub-composition recursion depth (the source recursion is
structural on an acyclic tree, so any depth bound at least the tree height
gives the source behaviour). -/
def displayOne (cosDeg sinDeg : ℚ → ℚ) (env : Nat → Option LayerVideo)
    (ph : Bool) (fuel : Nat) (l : ALayer) (mat : Mat4) (frame opacity : ℚ) :
    List RenderInstr :=
  if frame < l.1.start_time ∨ l.1.end_time ≤ frame ∨
      l.1.flagsVideoActive = false ∨ l.1.visible = false then []
  else
    let s2 : Mat4 × ℚ := layerStep cosDeg sinDeg env l.1 frame mat opacity
    match l.2 with
    | AItem.anone => []
    | AItem.aaudio _ => []
    | AItem.avideo vi => emitVideo ph s2 (blendOf l.1) vi
    | AItem.acomp ls =>
      match fuel with
      | 0 => []
      | fuel' + 1 =>
        (ls.reverse.map (fun c =>
          displayOne cosDeg sinDeg env ph fuel' c s2.1
            ((frame - l.1.start_time) * l.1.time_scale + l.1.offset_time)
            s2.2)).flatten
termination_by fuel

/-- `AetCompNode::display` (src/aet.rs lines 1025-1121): the layers are
visited in reverse storage order, each starting from the same incoming
matrix, frame and opacity, and the emitted instructions are concatenated in
visit order. -/
def displayComp (cosDeg sinDeg : ℚ → ℚ) (env : Nat → Option LayerVideo)
    (ph : Bool) (fuel : Nat) (ls : List ALayer) (mat : Mat4)
    (frame opacity : ℚ) : List RenderInstr :=
  (ls.reverse.map (fun l =>
    displayOne cosDeg sinDeg env ph fuel l mat frame opacity)).flatten

/-! ## The spec §8 linked-parenting scenario (claims C1 and C2) -/

/-- A video animation whose `pos_x` curve is constantly `px` and whose other
curves sit at their defaults (position/rotation/anchor `0`, scale/opacity
`1`), with no Video3D block. -/
def constPosVideo (px : ℚ) : LayerVideo :=
  { anchor_x := fun _ => 0, anchor_y := fun _ => 0
    pos_x := fun _ => px, pos_y := fun _ => 0, rot_z := fun _ => 0
    scale_x := fun _ => 1, scale_y := fun _ => 1
    opacity := fun _ => 1, transferMode := 0, threeD := none }

/-- Layer B's video animation: `pos_x` constantly `10`. -/
def videoB : LayerVideo := constPosVideo 10

/-- Layer A's video animation: `pos_x` constantly `5`. -/
def videoA : LayerVideo := constPosVideo 5

/-- The live-node environment of the scenario: node `0` is layer B, which
carries `videoB`.  Removing B from a composition's layer list does not
change this map, because A's `parent` field is a strong `Rc` that keeps the
node alive. -/
def envAB : Nat → Option LayerVideo :=
  fun i => if i = 0 then some videoB else none

/-- A video content item with one source whose sprite is resolved, so that
the traversal emits one render instruction for it. -/
def vitemA : VideoItem :=
  { color0 := 255, color1 := 255, color2 := 255, width := 1, height := 1
    fpf := 0
    sources := [{ name := "src", id := 7
                  sprite := some { isYcbcr := false
                                   texCoords := (0, 0, 1, 1)
                                   texIndex := 0 } }] }

/-- Layer A of the scenario: active on `[s, e)`, carrying `videoA`, with its
`parent` reference naming node `0` (layer B). -/
def layerA (s e : ℚ) : ALayer :=
  ({ name := "A", start_time := s, end_time := e, offset_time := 0
     time_scale := 1, flagsVideoActive := true, visible := true
     video := some videoA, parent := some 0 },
   AItem.avideo vitemA)

/-- Layer B of the scenario as a composition member (node `0`); it has no
parent reference of its own. -/
def layerB (s e : ℚ) : ALayer :=
  ({ name := "B", start_time := s, end_time := e, offset_time := 0
     time_scale := 1, flagsVideoActive := true, visible := true
     video := some videoB, parent := none },
   AItem.anone)

/-- C1: with `A.parentRef -> B`, evaluation applies B's video animation to
the incoming transform first and A's own second, both sampled at A's local
time, and in the spec scenario (`B.pos_x = 10`, `A.pos_x = 5`, defaults
elsewhere, no Video3D, identity incoming transform) the emitted
instruction's matrix has X-translation `15` at every frame in A's active
interval. -/
theorem c1_parent_before_own (cosDeg sinDeg : ℚ → ℚ) (s e frame : ℚ)
    (ph : Bool) (fuel : Nat) (hs : s ≤ frame) (he : frame < e) :
    (displayComp cosDeg sinDeg envAB ph fuel [layerA s e] idMat frame 1).map
        RenderInstr.mat =
      [(calcMat cosDeg sinDeg videoA frame
          (calcMat cosDeg sinDeg videoB frame idMat 1).1
          (calcMat cosDeg sinDeg videoB frame idMat 1).2).1] ∧
    (calcMat cosDeg sinDeg videoA frame
        (calcMat cosDeg sinDeg videoB frame idMat 1).1
        (calcMat cosDeg sinDeg videoB frame idMat 1).2).1.w =
      ⟨15, 0, 0, 1⟩ := by
  constructor
  · simp only [displayComp, displayOne, layerA, envAB, vitemA,
      List.reverse_cons, List.reverse_nil, List.nil_append, List.map_cons,
      List.map_nil, List.flatten]
    rw [if_neg]
    · simp [emitVideo, layerStep, vitemA, envAB]
    · push_neg
      exact ⟨hs, he, by simp, by simp⟩
  · simp [calcMat, videoA, videoB, constPosVideo, rotAroundX, rotAroundY,
      rotAroundZ, clampQ, idMat, Vec4.add_def, Vec4.smul_def]
    norm_num

/-- Witness for C1 at `s = 0`, `e = 1`, `frame = 0`, trivial trig oracle. -/
theorem c1_parent_before_own_witness :
    (displayComp (fun _ => 1) (fun _ => 0) envAB false 0 [layerA 0 1] idMat
        0 1).map RenderInstr.mat =
      [(calcMat (fun _ => 1) (fun _ => 0) videoA 0
          (calcMat (fun _ => 1) (fun _ => 0) videoB 0 idMat 1).1
          (calcMat (fun _ => 1) (fun _ => 0) videoB 0 idMat 1).2).1] ∧
    (calcMat (fun _ => 1) (fun _ => 0) videoA 0
        (calcMat (fun _ => 1) (fun _ => 0) videoB 0 idMat 1).1
        (calcMat (fun _ => 1) (fun _ => 0) videoB 0 idMat 1).2).1.w =
      ⟨15, 0, 0, 1⟩ :=
  c1_parent_before_own (fun _ => 1) (fun _ => 0) 0 1 0 false 0 (by norm_num)
    (by norm_num)

/-- The two-layer composition of the scenario before removal: A at index 0,
B at index 1. -/
def compAB (s e : ℚ) : List ALayer := [layerA s e, layerB s e]

/-- C2 counterexample: after B's list entry has been removed from the
composition, A's `parent` field (a strong `Rc` in the source) still reaches
the live B node, so evaluating the composition at frame `0` yields an
X-translation of `15`, not the `5` the claim asserts. -/
theorem c2_counterexample :
    ((displayComp (fun _ => 1) (fun _ => 0) envAB false 0
        ((compAB 0 1).eraseIdx 1) idMat 0 1).map (fun i => i.mat.w)) =
      [⟨15, 0, 0, 1⟩] ∧
    (⟨15, 0, 0, 1⟩ : Vec4) ≠ ⟨5, 0, 0, 1⟩ := by
  constructor
  · norm_num [displayComp, displayOne, layerStep, emitVideo, blendOf,
      compAB, layerA, layerB, envAB, vitemA, calcMat, videoA, videoB,
      constPosVideo, rotAroundX, rotAroundY, rotAroundZ, clampQ, idMat,
      Vec4.add_def, Vec4.smul_def, List.eraseIdx]
  · simp only [ne_eq, Vec4.mk.injEq]
    norm_num

/-- C2 amended: removing B from the composition removes its list entry, but
A's parent reference is a strong `Rc<Mutex<AetLayerNode>>`, not a weak
reference; the referenced node stays alive, so every subsequent evaluation
of A still applies B's video animation before A's own and the emitted
X-translation stays `15` — no error or panic is raised (the evaluation is
total and still emits exactly one instruction). -/
theorem c2_amended_strong_parent (cosDeg sinDeg : ℚ → ℚ) (s e frame : ℚ)
    (ph : Bool) (fuel : Nat) (hs : s ≤ frame) (he : frame < e) :
    (displayComp cosDeg sinDeg envAB ph fuel ((compAB s e).eraseIdx 1) idMat
        frame 1).map RenderInstr.mat =
      [(calcMat cosDeg sinDeg videoA frame
          (calcMat cosDeg sinDeg videoB frame idMat 1).1
          (calcMat cosDeg sinDeg videoB frame idMat 1).2).1] ∧
    (calcMat cosDeg sinDeg videoA frame
        (calcMat cosDeg sinDeg videoB frame idMat 1).1
        (calcMat cosDeg sinDeg videoB frame idMat 1).2).1.w =
      ⟨15, 0, 0, 1⟩ := by
  constructor
  · simp only [compAB, List.eraseIdx, displayComp, displayOne, layerA,
      envAB, vitemA, List.reverse_cons, List.reverse_nil, List.nil_append,
      List.map_cons, List.map_nil, List.flatten]
    rw [if_neg]
    · simp [emitVideo, layerStep, vitemA, envAB]
    · push_neg
      exact ⟨hs, he, by simp, by simp⟩
  · simp [calcMat, videoA, videoB, constPosVideo, rotAroundX, rotAroundY,
      rotAroundZ, clampQ, idMat, Vec4.add_def, Vec4.smul_def]
    norm_num

/-- Witness for the amended C2 at `s = 0`, `e = 1`, `frame = 0`. -/
theorem c2_amended_strong_parent_witness :
    (displayComp (fun _ => 1) (fun _ => 0) envAB false 0
        ((compAB 0 1).eraseIdx 1) idMat 0 1).map RenderInstr.mat =
      [(calcMat (fun _ => 1) (fun _ => 0) videoA 0
          (calcMat (fun _ => 1) (fun _ => 0) videoB 0 idMat 1).1
          (calcMat (fun _ => 1) (fun _ => 0) videoB 0 idMat 1).2).1] ∧
    (calcMat (fun _ => 1) (fun _ => 0) videoA 0
        (calcMat (fun _ => 1) (fun _ => 0) videoB 0 idMat 1).1
        (calcMat (fun _ => 1) (fun _ => 0) videoB 0 idMat 1).2).1.w =
      ⟨15, 0, 0, 1⟩ :=
  c2_amended_strong_parent (fun _ => 1) (fun _ => 0) 0 1 0 false 0
    (by norm_num) (by norm_num)

/-! ## Claims C3 and C4: the translate and rotation blocks of `calc_mat` -/

/-- Projection fact: the X-rotation block never touches the translation
column `w`. -/
theorem rotAroundX_w (cosDeg sinDeg : ℚ → ℚ) (a : ℚ) (m : Mat4) :
    (rotAroundX cosDeg sinDeg a m).w = m.w := by
  by_cases h : 0 < a <;> simp [rotAroundX, h]

/-- Projection fact: the Y-rotation block never touches the translation
column `w`. -/
theorem rotAroundY_w (cosDeg sinDeg : ℚ → ℚ) (a : ℚ) (m : Mat4) :
    (rotAroundY cosDeg sinDeg a m).w = m.w := by
  by_cases h : 0 < a <;> simp [rotAroundY, h]

/-- Projection fact: the Z-rotation block never touches the translation
column `w`. -/
theorem rotAroundZ_w (cosDeg sinDeg : ℚ → ℚ) (a : ℚ) (m : Mat4) :
    (rotAroundZ cosDeg sinDeg a m).w = m.w := by
  by_cases h : 0 < a <;> simp [rotAroundZ, h]

/-- A Video3D block whose only non-default curve is `pos_z`, constantly
`1` (every rotation sample `0`, `scale_z` `1`, `anchor_z` `0`). -/
def threeDPosZ : Video3D :=
  { anchor_z := fun _ => 0, pos_z := fun _ => 1
    dir_x := fun _ => 0, dir_y := fun _ => 0, dir_z := fun _ => 0
    rot_x := fun _ => 0, rot_y := fun _ => 0, scale_z := fun _ => 1 }

/-- A video animation whose only non-default curve is `pos_z`, constantly
`1` (Video3D present). -/
def videoPosZ : LayerVideo :=
  { constPosVideo 0 with threeD := some threeDPosZ }

/-- C3 counterexample: with `pos_z` sampling to `1` and an identity
incoming matrix, the translation column becomes `(0, 0, 1, 1)` — the
source stores `pos[2] = -pos_z` and then translates by `-pos[2]`, so the
two negations cancel — whereas the claim predicts `(0, 0, -1, 1)`. -/
theorem c3_counterexample :
    (calcMat (fun _ => 1) (fun _ => 0) videoPosZ 0 idMat 1).1.w =
      ⟨0, 0, 1, 1⟩ ∧
    (⟨0, 0, 1, 1⟩ : Vec4) ≠ ⟨0, 0, -1, 1⟩ := by
  constructor
  · norm_num [calcMat, videoPosZ, threeDPosZ, constPosVideo, rotAroundX,
      rotAroundY, rotAroundZ, clampQ, idMat, Vec4.add_def, Vec4.smul_def]
  · simp only [ne_eq, Vec4.mk.injEq]
    norm_num

/-- C3 amended: the translation step contributes
`px*M.x + py*M.y + v*M.z + M.w` with a *positive* Z term when Video3D is
present and `pos_z` samples to `v` (the stored negation is cancelled by a
second negation at use); with Video3D absent the Z term is zero.  Stated on
`calc_mat`'s output with the anchor samples zero, since only the later
anchor translation can touch `w` again. -/
theorem c3_amended_translation (cosDeg sinDeg : ℚ → ℚ) (v : LayerVideo)
    (frame : ℚ) (m : Mat4) (o : ℚ) :
    (∀ d, v.threeD = some d → v.anchor_x frame = 0 → v.anchor_y frame = 0 →
      d.anchor_z frame = 0 →
      (calcMat cosDeg sinDeg v frame m o).1.w =
        m.x * v.pos_x frame + m.y * v.pos_y frame + m.z * d.pos_z frame +
          m.w) ∧
    (v.threeD = none → v.anchor_x frame = 0 → v.anchor_y frame = 0 →
      (calcMat cosDeg sinDeg v frame m o).1.w =
        m.x * v.pos_x frame + m.y * v.pos_y frame + m.w) := by
  constructor
  · intro d h3 ha0 ha1 ha2
    simp only [calcMat, h3, ha0, ha1, ha2, rotAroundX_w, rotAroundY_w,
      rotAroundZ_w, Vec4.add_def, Vec4.smul_def]
    simp only [Vec4.mk.injEq]
    norm_num
  · intro h3 ha0 ha1
    simp only [calcMat, h3, ha0, ha1, rotAroundX_w, rotAroundY_w,
      rotAroundZ_w, Vec4.add_def, Vec4.smul_def]
    simp only [Vec4.mk.injEq]
    norm_num

/-- Witness for the amended C3: both the Video3D and the no-Video3D cases
applied at concrete inputs. -/
theorem c3_amended_translation_witness :
    ((calcMat (fun _ => 1) (fun _ => 0) videoPosZ 0 idMat 1).1.w =
      idMat.x * videoPosZ.pos_x 0 + idMat.y * videoPosZ.pos_y 0 +
        idMat.z * threeDPosZ.pos_z 0 + idMat.w) ∧
    ((calcMat (fun _ => 1) (fun _ => 0) videoA 0 idMat 1).1.w =
      idMat.x * videoA.pos_x 0 + idMat.y * videoA.pos_y 0 + idMat.w) :=
  ⟨(c3_amended_translation (fun _ => 1) (fun _ => 0) videoPosZ 0 idMat 1).1
      threeDPosZ rfl rfl rfl rfl,
   (c3_amended_translation (fun _ => 1) (fun _ => 0) videoA 0 idMat 1).2
      rfl rfl rfl⟩

/-- The matrix part of `calc_mat` with a Video3D block present, written as
the explicit ordered pipeline of its nine mutation blocks: translate, the
six gated rotations in order `dir.x, dir.y, dir.z, rot.x, rot.y, rot.z`,
scale, anchor translate. -/
def calcMatPipeline (cosDeg sinDeg : ℚ → ℚ) (v : LayerVideo) (d : Video3D)
    (frame : ℚ) (m : Mat4) : Mat4 :=
  let m1 := { m with
    w := m.x * v.pos_x frame + m.y * v.pos_y frame +
      m.z * (-(-(d.pos_z frame))) + m.w }
  let m2 := rotAroundX cosDeg sinDeg (d.dir_x frame) m1
  let m3 := rotAroundY cosDeg sinDeg (d.dir_y frame) m2
  let m4 := rotAroundZ cosDeg sinDeg (d.dir_z frame) m3
  let m5 := rotAroundX cosDeg sinDeg (d.rot_x frame) m4
  let m6 := rotAroundY cosDeg sinDeg (d.rot_y frame) m5
  let m7 := rotAroundZ cosDeg sinDeg (v.rot_z frame) m6
  let m8 := { m7 with
    x := m7.x * v.scale_x frame
    y := m7.y * v.scale_y frame
    z := m7.z * d.scale_z frame }
  { m8 with
    w := m8.x * (-v.anchor_x frame) + m8.y * (-v.anchor_y frame) +
      m8.z * (-d.anchor_z frame) + m8.w }

/-- C4: every one of the six 3D rotation components is gated on its sampled
angle being strictly positive — an angle `≤ 0` leaves the running matrix
unchanged by that component, an angle `> 0` applies the rotation — and
`calc_mat` runs them in the order `dir.x, dir.y, dir.z, rot.x, rot.y,
rot.z` between the translate and scale blocks. -/
theorem c4_rotation_gates :
    (∀ cosDeg sinDeg : ℚ → ℚ, ∀ a : ℚ, ∀ m : Mat4, a ≤ 0 →
      rotAroundX cosDeg sinDeg a m = m) ∧
    (∀ cosDeg sinDeg : ℚ → ℚ, ∀ a : ℚ, ∀ m : Mat4, a ≤ 0 →
      rotAroundY cosDeg sinDeg a m = m) ∧
    (∀ cosDeg sinDeg : ℚ → ℚ, ∀ a : ℚ, ∀ m : Mat4, a ≤ 0 →
      rotAroundZ cosDeg sinDeg a m = m) ∧
    (∀ cosDeg sinDeg : ℚ → ℚ, ∀ a : ℚ, ∀ m : Mat4, 0 < a →
      rotAroundX cosDeg sinDeg a m =
        { m with y := m.y * cosDeg (-a) + m.z * sinDeg (-a)
                 z := m.y * (-sinDeg (-a)) + m.z * cosDeg (-a) }) ∧
    (∀ cosDeg sinDeg : ℚ → ℚ, ∀ a : ℚ, ∀ m : Mat4, 0 < a →
      rotAroundY cosDeg sinDeg a m =
        { m with x := m.x * cosDeg (-a) + m.z * (-sinDeg (-a))
                 z := m.x * sinDeg (-a) + m.z * cosDeg (-a) }) ∧
    (∀ cosDeg sinDeg : ℚ → ℚ, ∀ a : ℚ, ∀ m : Mat4, 0 < a →
      rotAroundZ cosDeg sinDeg a m =
        { m with x := m.x * cosDeg a + m.y * sinDeg a
                 y := m.x * (-sinDeg a) + m.y * cosDeg a }) ∧
    (∀ cosDeg sinDeg : ℚ → ℚ, ∀ v : LayerVideo, ∀ d : Video3D,
      ∀ frame : ℚ, ∀ m : Mat4, ∀ o : ℚ, v.threeD = some d →
      (calcMat cosDeg sinDeg v frame m o).1 =
        calcMatPipeline cosDeg sinDeg v d frame m) := by
  refine ⟨?_, ?_, ?_, ?_, ?_, ?_, ?_⟩
  · intro _ _ a m h
    simp [rotAroundX, not_lt.2 h]
  · intro _ _ a m h
    simp [rotAroundY, not_lt.2 h]
  · intro _ _ a m h
    simp [rotAroundZ, not_lt.2 h]
  · intro _ _ a m h
    simp [rotAroundX, h]
  · intro _ _ a m h
    simp [rotAroundY, h]
  · intro _ _ a m h
    simp [rotAroundZ, h]
  · intro cosDeg sinDeg v d frame m o h3
    simp only [calcMat, calcMatPipeline, h3]

/-- Witness for C4: the three gates at non-positive concrete angles, one
applied rotation at a positive angle, and the pipeline decomposition on the
concrete `videoPosZ`. -/
theorem c4_rotation_gates_witness :
    rotAroundX (fun _ => 1) (fun _ => 0) 0 idMat = idMat ∧
    rotAroundY (fun _ => 1) (fun _ => 0) (-3) idMat = idMat ∧
    rotAroundZ (fun _ => 1) (fun _ => 0) (-(1/2)) idMat = idMat ∧
    rotAroundZ (fun _ => 1) (fun _ => 0) 90 idMat =
      { x := idMat.x * (1 : ℚ) + idMat.y * (0 : ℚ)
        y := idMat.x * (-(0 : ℚ)) + idMat.y * (1 : ℚ)
        z := idMat.z, w := idMat.w } ∧
    (calcMat (fun _ => 1) (fun _ => 0) videoPosZ 0 idMat 1).1 =
      calcMatPipeline (fun _ => 1) (fun _ => 0) videoPosZ threeDPosZ 0
        idMat :=
  ⟨c4_rotation_gates.1 _ _ 0 idMat le_rfl,
   c4_rotation_gates.2.1 _ _ (-3) idMat (by norm_num),
   c4_rotation_gates.2.2.1 _ _ (-(1/2)) idMat (by norm_num),
   c4_rotation_gates.2.2.2.2.2.1 _ _ 90 idMat (by norm_num),
   c4_rotation_gates.2.2.2.2.2.2 _ _ videoPosZ threeDPosZ 0 idMat 1 rfl⟩

/-! ## Claim C9: skipping of inactive layers -/

/-- C9: a layer whose local frame lies outside `[start_time, end_time)` or
whose visibility flags are inactive is skipped entirely by the display
loop: it emits no render instruction (also no recursion into a
sub-composition content), and removing it from its composition leaves the
traversal output unchanged. -/
theorem c9_inactive_layer_skipped (cosDeg sinDeg : ℚ → ℚ)
    (env : Nat → Option LayerVideo) (ph : Bool) (fuel : Nat)
    (before after : List ALayer) (l : ALayer) (m : Mat4) (frame o : ℚ)
    (h : frame < l.1.start_time ∨ l.1.end_time ≤ frame ∨
      l.1.flagsVideoActive = false ∨ l.1.visible = false) :
    displayOne cosDeg sinDeg env ph fuel l m frame o = [] ∧
    displayComp cosDeg sinDeg env ph fuel (before ++ l :: after) m frame o =
      displayComp cosDeg sinDeg env ph fuel (before ++ after) m frame o := by
  have h1 : displayOne cosDeg sinDeg env ph fuel l m frame o = [] := by
    rw [displayOne]
    exact if_pos h
  refine ⟨h1, ?_⟩
  simp [displayComp, List.reverse_append, h1]

/-- Witness for C9: a layer active on `[1, 2)` evaluated at frame `0`. -/
theorem c9_inactive_layer_skipped_witness :
    displayOne (fun _ => 1) (fun _ => 0) envAB false 0 (layerA 1 2) idMat
      0 1 = [] ∧
    displayComp (fun _ => 1) (fun _ => 0) envAB false 0
        ([] ++ layerA 1 2 :: []) idMat 0 1 =
      displayComp (fun _ => 1) (fun _ => 0) envAB false 0 ([] ++ []) idMat
        0 1 :=
  c9_inactive_layer_skipped (fun _ => 1) (fun _ => 0) envAB false 0 [] []
    (layerA 1 2) idMat 0 1 (Or.inl (by norm_num [layerA]))

/-! ## Claim C10: the opacity invariant -/

/-- The clamped opacity sample is nonnegative. -/
theorem clampQ_nonneg (x : ℚ) : 0 ≤ clampQ x 0 1 := le_max_left 0 _

/-- The clamped opacity sample is at most one. -/
theorem clampQ_le_one (x : ℚ) : clampQ x 0 1 ≤ 1 :=
  max_le (by norm_num) (min_le_left 1 x)

/-- The opacity component of `calc_mat`'s result is the incoming opacity
times the clamped opacity sample (src/aet.rs line 816). -/
theorem calcMat_opacity (cosDeg sinDeg : ℚ → ℚ) (v : LayerVideo)
    (frame : ℚ) (m : Mat4) (o : ℚ) :
    (calcMat cosDeg sinDeg v frame m o).2 =
      o * clampQ (v.opacity frame) 0 1 := rfl

/-- One `calc_mat` application keeps the opacity inside `[0, 1]`. -/
theorem calcMat_opacity_bounds (cosDeg sinDeg : ℚ → ℚ) (v : LayerVideo)
    (frame : ℚ) (m : Mat4) (o : ℚ) (h0 : 0 ≤ o) (h1 : o ≤ 1) :
    0 ≤ (calcMat cosDeg sinDeg v frame m o).2 ∧
      (calcMat cosDeg sinDeg v frame m o).2 ≤ 1 := by
  rw [calcMat_opacity]
  exact ⟨mul_nonneg h0 (clampQ_nonneg _),
    mul_le_one₀ h1 (clampQ_nonneg _) (clampQ_le_one _)⟩

/-- The per-layer step (parent video then own video) keeps the opacity
inside `[0, 1]`. -/
theorem layerStep_opacity_bounds (cosDeg sinDeg : ℚ → ℚ)
    (env : Nat → Option LayerVideo) (f : LayerFields) (frame : ℚ)
    (m : Mat4) (o : ℚ) (h0 : 0 ≤ o) (h1 : o ≤ 1) :
    0 ≤ (layerStep cosDeg sinDeg env f frame m o).2 ∧
      (layerStep cosDeg sinDeg env f frame m o).2 ≤ 1 := by
  cases hp : f.parent with
  | none =>
    cases hv : f.video with
    | none => simpa [layerStep, hp, hv] using ⟨h0, h1⟩
    | some v =>
      simpa [layerStep, hp, hv] using
        calcMat_opacity_bounds cosDeg sinDeg v frame m o h0 h1
  | some pid =>
    cases he : env pid with
    | none =>
      cases hv : f.video with
      | none => simpa [layerStep, hp, he, hv] using ⟨h0, h1⟩
      | some v =>
        simpa [layerStep, hp, he, hv] using
          calcMat_opacity_bounds cosDeg sinDeg v frame m o h0 h1
    | some vp =>
      have hb := calcMat_opacity_bounds cosDeg sinDeg vp frame m o h0 h1
      cases hv : f.video with
      | none => simpa [layerStep, hp, he, hv] using hb
      | some v =>
        simpa [layerStep, hp, he, hv] using
          calcMat_opacity_bounds cosDeg sinDeg v frame
            (calcMat cosDeg sinDeg vp frame m o).1
            (calcMat cosDeg sinDeg vp frame m o).2 hb.1 hb.2

/-- Every instruction emitted by the video arm carries the step's opacity
as its color alpha. -/
theorem emitVideo_colorA (ph : Bool) (s2 : Mat4 × ℚ) (blend : Nat)
    (vi : VideoItem) :
    ∀ instr ∈ emitVideo ph s2 blend vi, instr.colorA = s2.2 := by
  intro instr h
  unfold emitVideo at h
  cases hsrc : vi.sources with
  | nil =>
    rw [hsrc] at h
    by_cases hph : ph = true
    · simp [hph] at h
      rw [h]
    · simp [Bool.not_eq_true] at hph
      simp [hph] at h
  | cons src rest =>
    rw [hsrc] at h
    cases hsp : src.sprite with
    | none => simp [hsp] at h
    | some sp =>
      simp [hsp] at h
      rw [h]

/-- Every instruction emitted by the display loop at an incoming opacity in
`[0, 1]` carries a color alpha in `[0, 1]`, at every recursion depth. -/
theorem displayOne_colorA_bounds (cosDeg sinDeg : ℚ → ℚ)
    (env : Nat → Option LayerVideo) (ph : Bool) :
    ∀ (fuel : Nat) (l : ALayer) (m : Mat4) (frame o : ℚ), 0 ≤ o → o ≤ 1 →
      ∀ instr ∈ displayOne cosDeg sinDeg env ph fuel l m frame o,
        0 ≤ instr.colorA ∧ instr.colorA ≤ 1 := by
  intro fuel
  induction fuel with
  | zero =>
    intro l m frame o h0 h1 instr hins
    rw [displayOne] at hins
    split at hins
    · simp at hins
    · cases hit : l.2 with
      | anone => simp [hit] at hins
      | aaudio idx => simp [hit] at hins
      | avideo vi =>
        simp only [hit] at hins
        rw [emitVideo_colorA ph _ (blendOf l.1) vi instr hins]
        exact layerStep_opacity_bounds cosDeg sinDeg env l.1 frame m o h0 h1
      | acomp ls => simp [hit] at hins
  | succ n ih =>
    intro l m frame o h0 h1 instr hins
    rw [displayOne] at hins
    split at hins
    · simp at hins
    · cases hit : l.2 with
      | anone => simp [hit] at hins
      | aaudio idx => simp [hit] at hins
      | avideo vi =>
        simp only [hit] at hins
        rw [emitVideo_colorA ph _ (blendOf l.1) vi instr hins]
        exact layerStep_opacity_bounds cosDeg sinDeg env l.1 frame m o h0 h1
      | acomp ls =>
        simp only [hit, List.mem_flatten, List.mem_map] at hins
        obtain ⟨lst, ⟨c, hc, hlst⟩, hmem⟩ := hins
        have hb := layerStep_opacity_bounds cosDeg sinDeg env l.1 frame m o
          h0 h1
        exact ih c _ _ _ hb.1 hb.2 instr (hlst ▸ hmem)

/-- C10: for every traversal whose incoming opacity lies in `[0, 1]`, every
emitted render instruction carries an opacity (color alpha) in `[0, 1]`;
moreover each `calc_mat` application multiplies the running opacity by the
sampled opacity curve value clamped to `[0, 1]`. -/
theorem c10_opacity_unit_interval (cosDeg sinDeg : ℚ → ℚ)
    (env : Nat → Option LayerVideo) (ph : Bool) (fuel : Nat)
    (ls : List ALayer) (m : Mat4) (frame o : ℚ)
    (h0 : 0 ≤ o) (h1 : o ≤ 1) :
    (∀ (v : LayerVideo) (f2 : ℚ) (m2 : Mat4) (o2 : ℚ),
      (calcMat cosDeg sinDeg v f2 m2 o2).2 =
        o2 * clampQ (v.opacity f2) 0 1) ∧
    ∀ instr ∈ displayComp cosDeg sinDeg env ph fuel ls m frame o,
      0 ≤ instr.colorA ∧ instr.colorA ≤ 1 := by
  refine ⟨fun v f2 m2 o2 => calcMat_opacity cosDeg sinDeg v f2 m2 o2, ?_⟩
  intro instr hins
  simp only [displayComp, List.mem_flatten, List.mem_map] at hins
  obtain ⟨lst, ⟨c, hc, hlst⟩, hmem⟩ := hins
  exact displayOne_colorA_bounds cosDeg sinDeg env ph fuel c m frame o h0 h1
    instr (hlst ▸ hmem)

/-- The instruction the scenario composition emits at frame `0`. -/
def instrC : RenderInstr :=
  { isYcbcr := false, isEmpty := false, texCoords := (0, 0, 1, 1)
    sourceSize := (1, 1), texIndex := 0
    mat := { x := ⟨1, 0, 0, 0⟩, y := ⟨0, 1, 0, 0⟩, z := ⟨0, 0, 1, 0⟩
             w := ⟨15, 0, 0, 1⟩ }
    colorR := 1, colorG := 1, colorB := 1, colorA := 1, blendMode := 0 }

/-- Witness for C10 on the concrete scenario composition at opacity `1`. -/
theorem c10_opacity_unit_interval_witness :
    (calcMat (fun _ => 1) (fun _ => 0) videoA 0 idMat 1).2 =
      1 * clampQ (videoA.opacity 0) 0 1 ∧
    (0 ≤ instrC.colorA ∧ instrC.colorA ≤ 1) :=
  ⟨(c10_opacity_unit_interval (fun _ => 1) (fun _ => 0) envAB false 0
      [layerA 0 1] idMat 0 1 (by norm_num) (by norm_num)).1 videoA 0 idMat 1,
   (c10_opacity_unit_interval (fun _ => 1) (fun _ => 0) envAB false 0
      [layerA 0 1] idMat 0 1 (by norm_num) (by norm_num)).2 instrC
     (by norm_num [displayComp, displayOne, layerStep, emitVideo, blendOf,
        layerA, envAB, vitemA, calcMat, videoA, videoB, constPosVideo,
        rotAroundX, rotAroundY, rotAroundZ, clampQ, idMat, Vec4.add_def,
        Vec4.smul_def, instrC])⟩

/-! ## `LayerUndoer` (src/app.rs lines 44-156), claims C7 and C8

The undoer stores layer snapshots and compares them with `PartialEq`; the
model is generic over the snapshot type `α` with decidable equality.  The
source's `feed_state` first resolves the layer at the selected path from
the live scene (src/app.rs lines 120-134); the model receives that resolved
live value as the `layer` argument. -/

/-- The state of `LayerUndoer`: the bounded history deque, the baseline
snapshot `original_layer`, the selection it belongs to, and the in-flight
flux `(timestamp, snapshot)`. -/
structure Undoer (α : Type) where
  undos : List (α × List Nat)
  original_layer : α
  current_path : List Nat
  flux : Option (ℚ × α)
deriving DecidableEq

/-- `LayerUndoer::add_undo` (src/app.rs lines 107-114): push the snapshot,
drop the oldest entry beyond capacity 100, clear the flux. -/
def addUndo {α : Type} (s : Undoer α) (layer : α) (path : List Nat) :
    Undoer α :=
  let undos := s.undos ++ [(layer, path)]
  let undos := if 100 < undos.length then undos.tail else undos
  { s with undos := undos, flux := none }

/-- `LayerUndoer::undo` (src/app.rs lines 97-105): a pending flux is
discarded and the baseline returned without touching the history; otherwise
the most recent history entry is popped and returned. -/
def undo {α : Type} (s : Undoer α) : Undoer α × Option (α × List Nat) :=
  if s.flux.isSome then
    ({ s with flux := none }, some (s.original_layer, s.current_path))
  else
    ({ s with undos := s.undos.dropLast }, s.undos.getLast?)

/-- `LayerUndoer::feed_state` (src/app.rs lines 116-155) for one tick, with
the live layer value at the selection passed in as `layer`. -/
def feedState {α : Type} [DecidableEq α] (s : Undoer α) (current_time : ℚ)
    (selected : List Nat) (layer : α) : Undoer α :=
  if selected.length < 3 ∨ selected.head? ≠ some 0 then s
  else if selected = s.current_path then
    match s.flux with
    | some (time, last_update) =>
      if last_update ≠ layer then
        { s with flux := some (current_time, layer) }
      else if time + 1 ≤ current_time then
        let s2 := addUndo s s.original_layer s.current_path
        { s2 with original_layer := layer }
      else s
    | none =>
      if s.original_layer ≠ layer then
        { s with flux := some (current_time, layer) }
      else s
  else
    let s2 := if s.flux.isSome then addUndo s s.original_layer s.current_path
      else s
    { s2 with current_path := selected, original_layer := layer }

/-- A sequence of undoer ticks `(time, live value)` at a fixed selection. -/
def feedMany {α : Type} [DecidableEq α] (s : Undoer α) (p : List Nat)
    (ticks : List (ℚ × α)) : Undoer α :=
  ticks.foldl (fun st t => feedState st t.1 p t.2) s

/-- An edit burst: each tick's live value differs from the previous one
(starting from `prev`). -/
def burstOk {α : Type} (prev : α) : List (ℚ × α) → Prop
  | [] => True
  | (_, v) :: rest => v ≠ prev ∧ burstOk v rest

/-- Consecutive ticks are spaced less than one second apart. -/
def spacedOk {α : Type} : List (ℚ × α) → Prop
  | [] => True
  | [_] => True
  | (t1, _) :: (t2, v2) :: rest => t2 < t1 + 1 ∧ spacedOk ((t2, v2) :: rest)

/-- C8: `undo` with a pending flux discards it and returns the baseline
with its path, leaving the history untouched; with no pending flux it pops
and returns the most recent history entry. -/
theorem c8_undo_flux_or_pop {α : Type} (s : Undoer α) :
    (s.flux.isSome →
      undo s =
        ({ s with flux := none }, some (s.original_layer, s.current_path))) ∧
    (s.flux = none →
      undo s = ({ s with undos := s.undos.dropLast }, s.undos.getLast?)) := by
  constructor
  · intro h
    simp [undo, h]
  · intro h
    simp [undo, h]

/-- Concrete undoer state with a pending flux. -/
def undoerFlux : Undoer Nat :=
  { undos := [(7, [0, 0, 0])], original_layer := 3
    current_path := [0, 0, 0], flux := some (0, 5) }

/-- Concrete undoer state with no pending flux. -/
def undoerQuiet : Undoer Nat :=
  { undos := [(7, [0, 0, 0])], original_layer := 3
    current_path := [0, 0, 0], flux := none }

/-- Witness for C8 on the two concrete states. -/
theorem c8_undo_flux_or_pop_witness :
    undo undoerFlux =
      ({ undoerFlux with flux := none },
        some (undoerFlux.original_layer, undoerFlux.current_path)) ∧
    undo undoerQuiet =
      ({ undoerQuiet with undos := undoerQuiet.undos.dropLast },
        undoerQuiet.undos.getLast?) :=
  ⟨(c8_undo_flux_or_pop undoerFlux).1 rfl,
   (c8_undo_flux_or_pop undoerQuiet).2 rfl⟩

/-- While a burst is in progress (every tick's value differs from the
previous flux value), `feed_state` only refreshes the flux: the history,
baseline and path are untouched, and the flux ends at the last tick. -/
theorem feedBurst_flux {α : Type} [DecidableEq α] (p : List Nat)
    (hp3 : 3 ≤ p.length) (hp0 : p.head? = some 0) :
    ∀ (ticks : List (ℚ × α)) (s : Undoer α) (t0 : ℚ) (w : α),
      s.current_path = p → s.flux = some (t0, w) → burstOk w ticks →
      feedMany s p ticks =
        { s with flux := some (ticks.getLastD (t0, w)) } := by
  have hguard : ¬(p.length < 3 ∨ p.head? ≠ some 0) := by
    push_neg
    exact ⟨hp3, hp0⟩
  intro ticks
  induction ticks with
  | nil =>
    intro s t0 w hpath hflux _
    show s = { s with flux := some (t0, w) }
    rw [← hflux]
  | cons hd rest ih =>
    obtain ⟨t, v⟩ := hd
    intro s t0 w hpath hflux hbo
    obtain ⟨hne, hbo2⟩ := hbo
    have hstep : feedState s t p v = { s with flux := some (t, v) } := by
      simp only [feedState, hflux]
      rw [if_neg hguard, if_pos hpath.symm, if_pos (Ne.symm hne)]
    calc feedMany s p ((t, v) :: rest)
        = feedMany (feedState s t p v) p rest := rfl
      _ = feedMany { s with flux := some (t, v) } p rest := by rw [hstep]
      _ = { s with flux := some (rest.getLastD (t, v)) } := by
          simpa using ih { s with flux := some (t, v) } t v
            (by simpa using hpath) rfl hbo2
      _ = { s with flux := some (((t, v) :: rest).getLastD (t0, w)) } := by
          rw [List.getLastD_cons]

/-- The state after a burst starting from baseline `v0` at path `p` has
been committed with the now-stable value `vl`: the baseline snapshot is
appended to the history (dropping the oldest entry beyond capacity 100),
the baseline becomes `vl`, the flux is cleared. -/
def committedState {α : Type} (s0 : Undoer α) (v0 : α) (p : List Nat)
    (vl : α) : Undoer α :=
  { s0 with
    undos :=
      if 100 < (s0.undos ++ [(v0, p)]).length
      then (s0.undos ++ [(v0, p)]).tail
      else s0.undos ++ [(v0, p)]
    original_layer := vl
    flux := none }

/-- C7: ticks at a fixed selected path whose live value keeps changing
(each change less than one second after the previous one) push nothing;
the first tick at which the value has stayed stable for at least one
second commits exactly one entry — the pre-burst baseline — to the
history, makes the stable value the new baseline and clears the flux; and
every further quiet tick leaves the state unchanged. -/
theorem c7_burst_commits_once {α : Type} [DecidableEq α] (p : List Nat)
    (s0 : Undoer α) (v0 : α) (t1 : ℚ) (v1 : α) (rest : List (ℚ × α))
    (tl : ℚ) (vl : α) (T : ℚ)
    (hp3 : 3 ≤ p.length) (hp0 : p.head? = some 0)
    (hpath : s0.current_path = p) (hflux : s0.flux = none)
    (hbase : s0.original_layer = v0) (hv1 : v1 ≠ v0)
    (hbo : burstOk v1 rest) (_hsp : spacedOk ((t1, v1) :: rest))
    (hlast : rest.getLastD (t1, v1) = (tl, vl)) (hT : tl + 1 ≤ T) :
    feedMany s0 p (((t1, v1) :: rest) ++ [(T, vl)]) =
      committedState s0 v0 p vl ∧
    ∀ T2 : ℚ,
      feedState (committedState s0 v0 p vl) T2 p vl =
        committedState s0 v0 p vl := by
  have hguard : ¬(p.length < 3 ∨ p.head? ≠ some 0) := by
    push_neg
    exact ⟨hp3, hp0⟩
  have hstep1 : feedState s0 t1 p v1 = { s0 with flux := some (t1, v1) } := by
    simp only [feedState, hflux]
    rw [if_neg hguard, if_pos hpath.symm,
      if_pos (show s0.original_layer ≠ v1 by rw [hbase]; exact Ne.symm hv1)]
  have hburst : feedMany { s0 with flux := some (t1, v1) } p rest =
      { s0 with flux := some (tl, vl) } := by
    have h2 := feedBurst_flux p hp3 hp0 rest
      { s0 with flux := some (t1, v1) } t1 v1 (by simpa using hpath) rfl hbo
    rw [hlast] at h2
    simpa using h2
  have hcommit : feedState { s0 with flux := some (tl, vl) } T p vl =
      committedState s0 v0 p vl := by
    simp only [feedState]
    rw [if_neg hguard, if_pos (by simpa using hpath.symm),
      if_neg (show ¬(vl ≠ vl) by simp), if_pos (by simpa using hT)]
    simp [addUndo, committedState, hbase, hpath]
  constructor
  · calc feedMany s0 p (((t1, v1) :: rest) ++ [(T, vl)])
        = feedMany (feedMany s0 p ((t1, v1) :: rest)) p [(T, vl)] := by
          simp [feedMany, List.foldl_append]
      _ = feedMany (feedMany (feedState s0 t1 p v1) p rest) p [(T, vl)] :=
          rfl
      _ = feedMany { s0 with flux := some (tl, vl) } p [(T, vl)] := by
          rw [hstep1, hburst]
      _ = feedState { s0 with flux := some (tl, vl) } T p vl := rfl
      _ = committedState s0 v0 p vl := hcommit
  · intro T2
    simp only [feedState, committedState]
    rw [if_neg hguard, if_pos (by simpa using hpath.symm),
      if_neg (show ¬(vl ≠ vl) by simp)]

/-- Witness for C7: a two-edit burst (values 4 then 5, half a second
apart) over baseline 3, then a quiet tick one and a half seconds later;
exactly the baseline is appended, and a further quiet tick at time 7
changes nothing. -/
theorem c7_burst_commits_once_witness :
    feedMany undoerQuiet [0, 0, 0]
        (((0, 4) :: [(1/2, 5)]) ++ [(2, 5)]) =
      committedState undoerQuiet 3 [0, 0, 0] 5 ∧
    feedState (committedState undoerQuiet 3 [0, 0, 0] 5) 7 [0, 0, 0] 5 =
      committedState undoerQuiet 3 [0, 0, 0] 5 := by
  have h := c7_burst_commits_once [0, 0, 0] undoerQuiet 3 0 4 [(1/2, 5)]
    (1/2) 5 2 (by norm_num) rfl rfl rfl rfl (by norm_num)
    ⟨by norm_num, trivial⟩ (by norm_num [spacedOk]) (by norm_num)
    (by norm_num)
  exact ⟨h.1, h.2 7⟩

/-! ## Heap model of the layer graph for structural edits (claims C5, C6)

`AetCompNode.layers` is a `Vec<Rc<Mutex<AetLayerNode>>>`: a composition is
a list of node identifiers into a heap of shared nodes, and cloning an
entry (`self.root.layers[i].clone()`, src/aet.rs line 440) copies the
identifier, not the node.  The heap is a list of nodes addressed by index.
The animation blocks (`video`, `audio`) and sprite caches of
`AetLayerNode` are elided here: they play no role in the structural
claims, and the content comparison below mirrors the fields the source's
`PartialEq` for `AetLayerNode` (src/aet.rs lines 1368-1382) compares among
the remaining ones. -/

/-- `AetItemNode` for the heap model: a sub-composition holds the
identifiers of its child nodes. -/
inductive HItem where
  | hnone : HItem
  | hvideo : HItem
  | haudio : Nat → HItem
  | hcomp : List Nat → HItem
deriving DecidableEq, Repr

/-- An `AetLayerNode` as stored behind one `Rc<Mutex<..>>`. -/
structure HLayer where
  name : String
  start_time : ℚ
  end_time : ℚ
  offset_time : ℚ
  time_scale : ℚ
  flagsVideoActive : Bool
  visible : Bool
  markers : List (String × ℚ)
  item : HItem
  want_deletion : Bool
  want_duplicate : Bool
deriving DecidableEq, Repr

/-- Dereference a node identifier (always succeeds in the source while any
`Rc` to the node lives). -/
def getNode : List HLayer → Nat → Option HLayer
  | [], _ => none
  | l :: _, 0 => some l
  | _ :: rest, n + 1 => getNode rest n

/-- Mutate the node behind one identifier (a `try_lock().unwrap()` write in
the source). -/
def modifyNode : List HLayer → Nat → (HLayer → HLayer) → List HLayer
  | [], _, _ => []
  | l :: rest, 0, f => f l :: rest
  | l :: rest, n + 1, f => l :: modifyNode rest n f

/-- The context-menu `Duplicate` button (src/aet.rs lines 1926-1928): sets
`want_duplicate` on the clicked node. -/
def clickDuplicate (heap : List HLayer) (id : Nat) : List HLayer :=
  modifyNode heap id (fun l => { l with want_duplicate := true })

/-- The context-menu `Remove` button (src/aet.rs lines 1930-1932): sets
`want_deletion` on the clicked node. -/
def clickRemove (heap : List HLayer) (id : Nat) : List HLayer :=
  modifyNode heap id (fun l => { l with want_deletion := true })

/-- Element lookup in an identifier list (`layers[i]` in the source; the
indices fed to it are always in range). -/
def idAt : List Nat → Nat → Option Nat
  | [], _ => none
  | x :: _, 0 => some x
  | _ :: rest, n + 1 => idAt rest n

/-- `Vec::insert(i, v)`: insert `v` at position `i` (the source never
passes an out-of-range index here). -/
def insertAt : List Nat → Nat → Nat → List Nat
  | xs, 0, v => v :: xs
  | [], _ + 1, v => [v]
  | x :: xs, n + 1, v => x :: insertAt xs n v

/-- The indices, counted from `i0`, of the entries whose node has
`want_duplicate` set (the `enumerate/filter/map/collect` of src/aet.rs
lines 431-438). -/
def dupIndicesFrom (heap : List HLayer) : Nat → List Nat → List Nat
  | _, [] => []
  | i, id :: rest =>
    if ((getNode heap id).map HLayer.want_duplicate).getD false then
      i :: dupIndicesFrom heap (i + 1) rest
    else dupIndicesFrom heap (i + 1) rest

/-- Clear `want_duplicate` on every listed node (src/aet.rs lines
443-445). -/
def clearDupFlags : List HLayer → List Nat → List HLayer
  | heap, [] => heap
  | heap, id :: rest =>
    clearDupFlags
      (modifyNode heap id (fun l => { l with want_duplicate := false })) rest

/-- The structural-edit flush at the end of `AetSceneNode::display_tree`
(src/aet.rs lines 427-445): retain the entries whose node is not marked
for deletion, then for each index whose node is marked for duplication
insert a clone of that entry — `layers[i].clone()` clones the `Rc`, so the
inserted entry carries the *same* node identifier — and finally clear the
duplication flags.  (The undo-snapshot step that precedes this in the
source, lines 398-425, is modelled separately for claim C6.) -/
def flushRoot (heap : List HLayer) (root : List Nat) :
    List HLayer × List Nat :=
  let root1 := root.filter
    (fun id => !((getNode heap id).map HLayer.want_deletion).getD false)
  let root2 := (dupIndicesFrom heap 0 root1).foldl
    (fun acc i =>
      match idAt acc i with
      | some v => insertAt acc i v
      | none => acc)
    root1
  (clearDupFlags heap root2, root2)

/-- The persisted per-node fields that the source's `PartialEq` for
`AetLayerNode` compares (besides the item), with the elided animation
blocks omitted. -/
structure HCore where
  name : String
  start_time : ℚ
  end_time : ℚ
  offset_time : ℚ
  time_scale : ℚ
  flagsVideoActive : Bool
  markers : List (String × ℚ)
deriving DecidableEq, Repr

/-- A fully resolved layer subtree: the value a composition entry denotes
once every identifier is dereferenced, with the transient want-flags and
UI state dropped (the comparison the spec's "content-equal" refers to). -/
inductive RTree where
  | rnone : HCore → RTree
  | rvideo : HCore → RTree
  | raudio : HCore → Nat → RTree
  | rcomp : HCore → List RTree → RTree

/-- The persisted core of a node. -/
def coreOf (l : HLayer) : HCore :=
  { name := l.name, start_time := l.start_time, end_time := l.end_time
    offset_time := l.offset_time, time_scale := l.time_scale
    flagsVideoActive := l.flagsVideoActive, markers := l.markers }

/-- Resolve a node value against a heap into the subtree it denotes;
`fuel` bounds the depth (the source's graphs are acyclic, so any depth
bound at least the tree height is exact). -/
def resolveLayer : Nat → List HLayer → HLayer → RTree
  | 0, _, l =>
    match l.item with
    | HItem.hnone => RTree.rnone (coreOf l)
    | HItem.hvideo => RTree.rvideo (coreOf l)
    | HItem.haudio n => RTree.raudio (coreOf l) n
    | HItem.hcomp _ => RTree.rcomp (coreOf l) []
  | fuel + 1, heap, l =>
    match l.item with
    | HItem.hnone => RTree.rnone (coreOf l)
    | HItem.hvideo => RTree.rvideo (coreOf l)
    | HItem.haudio n => RTree.raudio (coreOf l) n
    | HItem.hcomp ids =>
      RTree.rcomp (coreOf l)
        (ids.filterMap (fun id =>
          (getNode heap id).map (resolveLayer fuel heap)))

/-- Resolve a composition's identifier list into the content it denotes. -/
def resolveComp (fuel : Nat) (heap : List HLayer) (ids : List Nat) :
    List RTree :=
  ids.filterMap (fun id => (getNode heap id).map (resolveLayer fuel heap))

/-- A single plain layer node. -/
def layerL : HLayer :=
  { name := "L", start_time := 0, end_time := 10, offset_time := 0
    time_scale := 1, flagsVideoActive := true, visible := true
    markers := [], item := HItem.hnone
    want_deletion := false, want_duplicate := false }

/-- A one-node heap. -/
def heap0 : List HLayer := [layerL]

/-- A composition holding the single layer. -/
def root0 : List Nat := [0]

/-- C5 failing run: duplicating layer `L` inserts a second entry with the
*same* node identifier (`Rc` clone), so pressing `Remove` on the duplicate
sets `want_deletion` on the shared node and the following flush deletes
*both* entries: the composition ends up empty instead of content-equal to
its original one-layer state. -/
theorem c5_duplicate_remove_deletes_original :
    (flushRoot (clickDuplicate heap0 0) root0).2 = [0, 0] ∧
    (flushRoot (clickRemove (flushRoot (clickDuplicate heap0 0) root0).1 0)
        (flushRoot (clickDuplicate heap0 0) root0).2).2 = [] ∧
    resolveComp 5
        (flushRoot (clickRemove (flushRoot (clickDuplicate heap0 0) root0).1
            0)
          (flushRoot (clickDuplicate heap0 0) root0).2).1
        (flushRoot (clickRemove (flushRoot (clickDuplicate heap0 0) root0).1
            0)
          (flushRoot (clickDuplicate heap0 0) root0).2).2 = [] ∧
    resolveComp 5 heap0 root0 ≠ [] := by
  refine ⟨rfl, rfl, rfl, ?_⟩
  intro h
  rw [show resolveComp 5 heap0 root0 = [RTree.rnone (coreOf layerL)] from
    rfl] at h
  exact List.cons_ne_nil _ _ h

/-- A parent node whose sub-composition content is the node with
identifier `1`. -/
def layerP : HLayer :=
  { name := "P", start_time := 0, end_time := 10, offset_time := 0
    time_scale := 1, flagsVideoActive := true, visible := true
    markers := [], item := HItem.hcomp [1]
    want_deletion := false, want_duplicate := false }

/-- The nested child node. -/
def layerC : HLayer :=
  { name := "C", start_time := 0, end_time := 10, offset_time := 0
    time_scale := 1, flagsVideoActive := true, visible := true
    markers := [], item := HItem.hnone
    want_deletion := false, want_duplicate := false }

/-- A heap with the parent at identifier `0` and its nested child at
identifier `1`. -/
def heapPC : List HLayer := [layerP, layerC]

/-- The same heap after a live edit renames the nested child. -/
def heapPC2 : List HLayer :=
  modifyNode heapPC 1 (fun l => { l with name := "X" })

/-- An empty undoer over layer-node snapshots. -/
def undoerH : Undoer HLayer :=
  { undos := [], original_layer := layerP, current_path := [], flux := none }

/-- C6 failing run: a history entry holds the *shallow* node value (the
derived `Clone` of `AetLayerNode` copies the `Rc` list inside a
sub-composition item, not the nodes), so after a later edit of the nested
child the subtree that the stored snapshot denotes through the live heap
has changed — `undo` hands back a snapshot whose nested content shows the
post-capture name, not the capture-time one. -/
theorem c6_snapshot_subtree_mutates :
    (undo (addUndo undoerH layerP [0, 0, 2])).2 = some (layerP, [0, 0, 2]) ∧
    resolveLayer 5 heapPC layerP =
      RTree.rcomp (coreOf layerP) [RTree.rnone (coreOf layerC)] ∧
    resolveLayer 5 heapPC2 layerP =
      RTree.rcomp (coreOf layerP)
        [RTree.rnone (coreOf { layerC with name := "X" })] ∧
    RTree.rcomp (coreOf layerP) [RTree.rnone (coreOf layerC)] ≠
      RTree.rcomp (coreOf layerP)
        [RTree.rnone (coreOf { layerC with name := "X" })] := by
  refine ⟨rfl, rfl, rfl, ?_⟩
  intro h
  simp [coreOf, layerC] at h
